import Mathlib

set_option maxHeartbeats 1000000

/-!
Shallow embedding of the moderation core of the telegram-group-bot
repository: the alert scheduler, the violation-escalation handlers, the
group-settings lookup, the abusive-word matcher (including the word-boundary
regular-expression fragment it builds), the image moderation cascade, and
the term-list mutations.  Texts are modelled as lists of characters;
external collaborators (Telegram API, OpenAI, MongoDB) are modelled as
explicit stores and oracle inputs, with the success path of each database
call made explicit.
-/

namespace TGBot

/-! ## Generic character and string helpers -/

/-- Case-insensitive character comparison, as performed by a JavaScript
regular expression compiled with the i flag. -/
def ciCharEq (a b : Char) : Bool :=
  a.toLower == b.toLower

/-- Word character in the sense of the JavaScript regex word-boundary
assertion: ASCII letter, digit, or underscore. -/
def isJsWordChar (c : Char) : Bool :=
  (65 ≤ c.toNat && c.toNat ≤ 90) || (97 ≤ c.toNat && c.toNat ≤ 122) ||
    (48 ≤ c.toNat && c.toNat ≤ 57) || (c.toNat == 95)

/-- ASCII letter or digit. -/
def isAsciiAlphanum (c : Char) : Bool :=
  (48 ≤ c.toNat && c.toNat ≤ 57) || (65 ≤ c.toNat && c.toNat ≤ 90) ||
    (97 ≤ c.toNat && c.toNat ≤ 122)

/-- Exact (case-sensitive) occurrence of the needle at offset i of the
haystack. -/
def sublistAtExact : List Char → List Char → Nat → Bool
  | [], _, _ => true
  | c :: cs, t, i =>
    (match t.get? i with
     | some d => c == d
     | none => false) && sublistAtExact cs t (i + 1)

/-- Substring containment, the model of the JavaScript includes method. -/
def containsSub (needle hay : List Char) : Bool :=
  (List.range (hay.length + 1)).any (fun i => sublistAtExact needle hay i)

/-- Case-insensitive occurrence of a single pattern character at offset i,
shared by the regex matcher and the boundary-occurrence predicate. -/
def litMatch (t : List Char) (i : Nat) (c : Char) : Bool :=
  match t.get? i with
  | some d => ciCharEq c d
  | none => false

/-- Case-insensitive occurrence of the needle at offset i of the
haystack. -/
def ciSublistAt : List Char → List Char → Nat → Bool
  | [], _, _ => true
  | c :: cs, t, i => litMatch t i c && ciSublistAt cs t (i + 1)

/-- Model of the JavaScript trim method (ASCII whitespace). -/
def trimChars (l : List Char) : List Char :=
  ((l.dropWhile Char.isWhitespace).reverse.dropWhile Char.isWhitespace).reverse

/-- Model of the JavaScript join method on an array of strings. -/
def joinSep (sep : List Char) : List (List Char) → List Char
  | [] => []
  | [x] => x
  | x :: xs => x ++ sep ++ joinSep sep xs

/-- Model of the JavaScript split method with a single-character
separator. -/
def splitOnChar (sep : Char) : List Char → List (List Char)
  | [] => [[]]
  | c :: rest =>
    let r := splitOnChar sep rest
    if c == sep then [] :: r
    else
      match r with
      | [] => [[c]]
      | h :: t => (c :: h) :: t

/-! ## Alert scheduler (db.ts: getAlertMessagesToSend) -/

/-- An alert record as stored in the alertMessages collection: chat id,
message text, interval in minutes, and the epoch-millisecond timestamp of
the last send (0 = never sent). -/
structure AlertRecord where
  chatId : Int
  message : List Char
  interval : Nat
  lastSent : Nat
  deriving DecidableEq

/-- The due filter used by getAlertMessagesToSend: the mongo query selects
the records with now greater than lastSent + interval * 60000. -/
def alertDue (now : Nat) (a : AlertRecord) : Bool :=
  a.lastSent + a.interval * 60000 < now

/-- getAlertMessagesToSend from db.ts: returns the alert records selected by
the due filter at the current time. -/
def getAlertMessagesToSend (store : List AlertRecord) (now : Nat) : List AlertRecord :=
  store.filter (alertDue now)

/-! ## Violation escalation (index.ts: message:text handler tail and
handleInappropriateContent) -/

/-- Per-(user, chat) moderation state: the persistent warning count (the
userWarningsAcrossSessions document) and the session lastWarning timestamp
used for the warning cooldown (0 = never warned). -/
structure UserModState where
  count : Nat
  lastWarning : Nat
  deriving DecidableEq

/-- The externally visible action taken for one flagged message. -/
inductive ModAction where
  | warn : Nat → ModAction
  | ban : ModAction
  | noAction : ModAction
  deriving DecidableEq

/-- Transition relation isWarn predicate on the emitted action. -/
def isWarnAction : ModAction → Bool
  | ModAction.warn _ => true
  | _ => false

/-- handleInappropriateContent from index.ts (media path), on the
database-success path: increment the stored count; at three or more
violations ban and reset the count to 0; below the threshold warn, but only
when no warning was sent in the last 60000 ms (the warn updates
lastWarning, the other branches leave it unchanged). -/
def handleInappropriateContent (s : UserModState) (now : Nat) : UserModState × ModAction :=
  let warningCount := s.count + 1
  if 3 ≤ warningCount then
    (⟨0, s.lastWarning⟩, ModAction.ban)
  else if s.lastWarning = 0 ∨ 60000 < now - s.lastWarning then
    (⟨warningCount, now⟩, ModAction.warn warningCount)
  else
    (⟨warningCount, s.lastWarning⟩, ModAction.noAction)

/-- Moderation tail of the message:text handler in index.ts, on the
database-success path.  The boolean argument records whether deleting the
offending message succeeded; the third component of the result records
whether the could-not-delete notice was sent.  A warning is only sent when
the message was deleted; the ban branch runs regardless. -/
def handleTextViolation (s : UserModState) (now : Nat) (messageDeleted : Bool) :
    UserModState × ModAction × Bool :=
  let warningCount := s.count + 1
  let notice := !messageDeleted
  if 3 ≤ warningCount then
    (⟨0, s.lastWarning⟩, ModAction.ban, notice)
  else if messageDeleted = true ∧ (s.lastWarning = 0 ∨ 60000 < now - s.lastWarning) then
    (⟨warningCount, now⟩, ModAction.warn warningCount, notice)
  else
    (⟨warningCount, s.lastWarning⟩, ModAction.noAction, notice)

/-! ## Group settings (db.ts: getGroupSettings, getDefaultGroupSettings) -/

/-- A groupSettings document. -/
structure GroupSettings where
  chatId : Int
  abusiveWordsEnabled : Bool
  imageModeration : Bool
  videoModeration : Bool
  deriving DecidableEq

/-- getDefaultGroupSettings from db.ts: the settings returned when no
document exists for the chat. -/
def getDefaultGroupSettings (chatId : Int) : GroupSettings :=
  ⟨chatId, true, true, true⟩

/-- getGroupSettings from db.ts: a falsy chat id, an unreachable store, or
an absent document all yield the default settings; otherwise the stored
document is returned. -/
def getGroupSettings (store : List GroupSettings) (chatId : Int) : GroupSettings :=
  if chatId = 0 then getDefaultGroupSettings chatId
  else
    match store.find? (fun s => s.chatId == chatId) with
    | some s => s
    | none => getDefaultGroupSettings chatId

/-! ## Word matcher (index.ts: containsAbusiveWord)

The handler builds, for each term w, the JavaScript regular expression
new RegExp(backslash-b ++ w ++ backslash-b, i-flag) and falls back to plain
substring containment when the construction throws.  We embed the fragment
of JavaScript regular expressions those patterns exercise: literal
characters, the dot wildcard, backslash escapes (backslash-b is the word
boundary assertion), with the remaining metacharacters conservatively
treated as invalid patterns. -/

/-- Elements of the compiled pattern. -/
inductive RElem where
  | wb : RElem
  | lit : Char → RElem
  | anyChar : RElem
  deriving DecidableEq

/-- Metacharacters our pattern fragment does not support; a term containing
one of them compiles to none (invalid pattern), sending the matcher to the
substring fallback. -/
def regexSpecials : List Char :=
  ['(', ')', '[', ']', '{', '}', '*', '+', '?', '|', '^', '$']

/-- Compile the body of the pattern (the term itself). -/
def parseBody : List Char → Option (List RElem)
  | [] => some []
  | c :: rest =>
    if c == '\\' then
      match rest with
      | [] => none
      | d :: rest2 =>
        match parseBody rest2 with
        | some ps => some ((if d == 'b' then RElem.wb else RElem.lit d) :: ps)
        | none => none
    else if c ∈ regexSpecials then none
    else if c == '.' then
      match parseBody rest with
      | some ps => some (RElem.anyChar :: ps)
      | none => none
    else
      match parseBody rest with
      | some ps => some (RElem.lit c :: ps)
      | none => none

/-- The full pattern built by containsAbusiveWord: a word boundary on each
side of the compiled term. -/
def wordPattern (w : List Char) : Option (List RElem) :=
  match parseBody w with
  | some body => some (RElem.wb :: (body ++ [RElem.wb]))
  | none => none

/-- Whether position i of the text carries a word character. -/
def wordCharAt (t : List Char) (i : Nat) : Bool :=
  match t.get? i with
  | some c => isJsWordChar c
  | none => false

/-- The JavaScript word-boundary assertion at position i: the
word-character status changes between the previous character and the
current one (positions outside the text count as non-word). -/
def jsBoundaryAt (t : List Char) (i : Nat) : Bool :=
  (if i = 0 then false else wordCharAt t (i - 1)) != wordCharAt t i

/-- Match the pattern elements against the text starting at position i. -/
def matchElemsAt (t : List Char) : List RElem → Nat → Bool
  | [], _ => true
  | RElem.wb :: ps, i => jsBoundaryAt t i && matchElemsAt t ps i
  | RElem.lit c :: ps, i => litMatch t i c && matchElemsAt t ps (i + 1)
  | RElem.anyChar :: ps, i =>
    (match t.get? i with
     | some d => !(d == '\n' || d == '\r')
     | none => false) && matchElemsAt t ps (i + 1)

/-- The regex test method: the pattern matches at some position of the
text. -/
def regexTest (ps : List RElem) (t : List Char) : Bool :=
  (List.range (t.length + 1)).any (fun i => matchElemsAt t ps i)

/-- Per-term check of containsAbusiveWord: test the boundary pattern of the
lowercased term against the (already lowercased) text, falling back to
substring containment when the pattern is invalid. -/
def flaggedByWord (lowerText : List Char) (word : List Char) : Bool :=
  let w := word.map Char.toLower
  match wordPattern w with
  | some ps => regexTest ps lowerText
  | none => containsSub w lowerText

/-- containsAbusiveWord from index.ts, on the database-success path: empty
text is never flagged; when a (truthy) chat id is supplied the group
settings gate the check and the per-group database words are scanned after
the local list. -/
def containsAbusiveWord (text : List Char) (chatId : Option Int)
    (store : List GroupSettings) (localWords dbWords : List (List Char)) : Bool :=
  if text.isEmpty then false
  else
    let useChat : Bool :=
      match chatId with
      | some cid => !(cid == 0)
      | none => false
    let enabled : Bool :=
      match chatId with
      | some cid => if cid == 0 then true else (getGroupSettings store cid).abusiveWordsEnabled
      | none => true
    if useChat && !enabled then false
    else
      let lowerText := text.map Char.toLower
      localWords.any (fun w => flaggedByWord lowerText w) ||
        (useChat && dbWords.any (fun w => flaggedByWord lowerText w))

/-- Case-insensitive occurrence of the term at a JavaScript word boundary
of the text; this is what the compiled pattern tests when the term contains
no metacharacters. -/
def occursAtWordBoundary (w t : List Char) : Bool :=
  (List.range (t.length + 1)).any
    (fun i => jsBoundaryAt t i && (ciSublistAt w t i && jsBoundaryAt t (i + w.length)))

/-- Modelled from the spec: occurrence of the term in the text, valid only
when not immediately preceded or followed by an alphanumeric character (the
word-boundary notion the spec states for the word matcher). -/
def specAlnumBoundaryOccurs (w t : List Char) : Bool :=
  (List.range (t.length + 1)).any
    (fun i =>
      ciSublistAt w t i &&
      (match (if i = 0 then none else t.get? (i - 1)) with
       | some c => !c.isAlphanum
       | none => true) &&
      (match t.get? (i + w.length) with
       | some c => !c.isAlphanum
       | none => true))

/-! ## Image moderation cascade (openai.ts: moderateImage)

The remote calls (omni moderation, the two GPT-4o requests) are abstracted
as oracle inputs: none models a transport or API failure of that call.  The
image itself is abstracted by its base64-encoded payload, the form every
stage of the cascade consumes. -/

/-- The five detection stages of the cascade, in source order. -/
inductive Stage where
  | primary : Stage
  | secondary : Stage
  | patternScan : Stage
  | ocr : Stage
  | directPattern : Stage
  deriving DecidableEq

/-- Result of the primary omni-moderation call: the flagged bit and the
category map (name, flagged). -/
structure Stage1Result where
  flagged : Bool
  categories : List (List Char × Bool)
  deriving DecidableEq

/-- Oracle inputs for the three remote calls of the cascade. -/
structure ImageOracle where
  stage1 : Option Stage1Result
  stage2 : Option (List Char)
  stage4 : Option (List Char)
  deriving DecidableEq

/-- The base64 alphabet. -/
def base64Table : List Char :=
  "ABCDEFGHIJKLMNOPQRSTUVWXYZabcdefghijklmnopqrstuvwxyz0123456789+/".toList

/-- Character of the base64 alphabet at a 6-bit index. -/
def base64Char (n : Nat) : Char :=
  match base64Table.get? n with
  | some c => c
  | none => 'A'

/-- Standard base64 of a byte sequence, as produced by the JavaScript
Buffer toString base64 conversion. -/
def base64EncodeBytes : List Nat → List Char
  | [] => []
  | [b1] => [base64Char (b1 / 4), base64Char (b1 % 4 * 16), '=', '=']
  | [b1, b2] =>
    [base64Char (b1 / 4), base64Char (b1 % 4 * 16 + b2 / 16), base64Char (b2 % 16 * 4), '=']
  | b1 :: b2 :: b3 :: rest =>
    [base64Char (b1 / 4), base64Char (b1 % 4 * 16 + b2 / 16),
      base64Char (b2 % 16 * 4 + b3 / 64), base64Char (b3 % 64)] ++ base64EncodeBytes rest

/-- Base64 of an ASCII string (the denylist terms are all ASCII, so UTF-8
encoding is the identity on their code points). -/
def base64EncodeAscii (s : List Char) : List Char :=
  base64EncodeBytes (s.map Char.toNat)

/-- The hardcoded explicit-term denylist shared by the encoded-payload scan
(stage 3) and the OCR scan (stage 4) in openai.ts. -/
def explicitTerms : List (List Char) :=
  ["slut".toList, "whore".toList, "bitch".toList, "fuck".toList, "sex".toList,
   "porn".toList, "xxx".toList, "nude".toList, "naked".toList, "ass".toList,
   "tits".toList, "boobs".toList, "cock".toList, "dick".toList, "pussy".toList,
   "cunt".toList, "vagina".toList, "penis".toList, "anal".toList, "cum".toList,
   "jizz".toList, "hooker".toList, "escort".toList, "stripper".toList,
   "hoe".toList, "thot".toList]

/-- The hardcoded direct patterns of stage 5 in openai.ts. -/
def slutPatterns : List (List Char) :=
  ["U1VMVA==".toList, "c2x1dA==".toList, "U2x1dA==".toList,
   "SLUT".toList, "slut".toList, "Slut".toList]

/-- Accumulated (isInappropriate, reason) state after the primary
omni-moderation attempt: on API failure the state is untouched (reason
stays empty); on success the flagged bit is taken and the reason derived
from the flagged categories. -/
def stage1Eval (o : ImageOracle) : Bool × List Char :=
  match o.stage1 with
  | none => (false, [])
  | some r =>
    let flaggedCats := (r.categories.filter (fun p => p.2)).map (fun p => p.1)
    let reason :=
      if r.flagged && !flaggedCats.isEmpty then
        "Flagged categories: ".toList ++ joinSep ", ".toList flaggedCats
      else "Inappropriate content detected".toList
    (r.flagged, reason)

/-- Tail of the stage 2 reason after its stage label: the part after the
first colon of the model response when nonempty, a fixed text otherwise. -/
def secondaryReasonTail (content : List Char) : List Char :=
  if content.contains ':' then
    match (splitOnChar ':' content).get? 1 with
    | some part =>
      let part2 := trimChars part
      if part2.isEmpty then "Inappropriate content".toList else part2
    | none => "Inappropriate content".toList
  else "Inappropriate content".toList

/-- Whether the trimmed stage 2 response flags: its uppercase form contains
the word INAPPROPRIATE. -/
def stage2Verdict (content : List Char) : Bool :=
  containsSub "INAPPROPRIATE".toList ((trimChars content).map Char.toUpper)

/-- State after the secondary GPT-4o pass, entered only when the state is
not yet flagged. -/
def afterStage2 (o : ImageOracle) : Bool × List Char :=
  let s1 := stage1Eval o
  if s1.1 then s1
  else
    match o.stage2 with
    | none => s1
    | some content =>
      if stage2Verdict content then
        (true, "Secondary detection: ".toList ++ secondaryReasonTail (trimChars content))
      else s1

/-- The terms found by the stage 3 encoded-payload scan: a term is found
when the lowercased payload contains the lowercase form of the term, its
uppercase form, or the base64 encoding of either. -/
def stage3Found (base64Image : List Char) : List (List Char) :=
  let base64Lower := base64Image.map Char.toLower
  explicitTerms.filter
    (fun term =>
      [term, term.map Char.toUpper, base64EncodeAscii term,
        base64EncodeAscii (term.map Char.toUpper)].any
        (fun v => containsSub (v.map Char.toLower) base64Lower))

/-- State after the stage 3 encoded-payload scan. -/
def afterStage3 (base64Image : List Char) (o : ImageOracle) : Bool × List Char :=
  let s2 := afterStage2 o
  if s2.1 then s2
  else
    let found := stage3Found base64Image
    if !found.isEmpty then
      (true, "Pattern matching: Found explicit terms (".toList ++
        joinSep ", ".toList found ++ [')'])
    else s2

/-- The terms found by the stage 4 OCR scan in the trimmed, lowercased
transcription. -/
def stage4Found (extractedText : List Char) : List (List Char) :=
  explicitTerms.filter (fun term => containsSub (term.map Char.toLower) extractedText)

/-- State after the stage 4 OCR scan. -/
def afterStage4 (base64Image : List Char) (o : ImageOracle) : Bool × List Char :=
  let s3 := afterStage3 base64Image o
  if s3.1 then s3
  else
    match o.stage4 with
    | none => s3
    | some content =>
      let found := stage4Found ((trimChars content).map Char.toLower)
      if !found.isEmpty then
        (true, "OCR detection: Found explicit terms (".toList ++
          joinSep ", ".toList found ++ [')'])
      else s3

/-- State after the stage 5 direct pattern check on the raw payload. -/
def afterStage5 (base64Image : List Char) (o : ImageOracle) : Bool × List Char :=
  let s4 := afterStage4 base64Image o
  if s4.1 then s4
  else if slutPatterns.any (fun p => containsSub p base64Image) then
    (true, "Direct pattern matching: Detected explicit text".toList)
  else s4

/-- The stages the cascade actually runs: each stage after the first is
entered exactly when the state was not yet flagged. -/
def invokedStages (base64Image : List Char) (o : ImageOracle) : List Stage :=
  Stage.primary ::
    ((if (stage1Eval o).1 then [] else [Stage.secondary]) ++
     (if (afterStage2 o).1 then [] else [Stage.patternScan]) ++
     (if (afterStage3 base64Image o).1 then [] else [Stage.ocr]) ++
     (if (afterStage4 base64Image o).1 then [] else [Stage.directPattern]))

/-- The verdict returned by moderateImage. -/
structure Verdict where
  isInappropriate : Bool
  reason : Option (List Char)
  deriving DecidableEq

/-- moderateImage from openai.ts, instrumented with the list of stages the
cascade runs.  The three leading booleans model the early returns: an
invalid buffer, a missing OPENAI_API_KEY, and a temp-directory or write
failure each return a not-flagged verdict before any stage runs. -/
def moderateImage (validBuffer hasApiKey prepOk : Bool) (base64Image : List Char)
    (o : ImageOracle) : Verdict × List Stage :=
  if !validBuffer then (⟨false, none⟩, [])
  else if !hasApiKey then (⟨false, none⟩, [])
  else if !prepOk then (⟨false, none⟩, [])
  else
    let s5 := afterStage5 base64Image o
    (⟨s5.1, if s5.1 then some s5.2 else none⟩, invokedStages base64Image o)

/-! ## Spec-side stage predicates, for stating the cascade properties -/

/-- Whether the primary call reports flagged. -/
def stage1Flagged (o : ImageOracle) : Bool :=
  match o.stage1 with
  | some r => r.flagged
  | none => false

/-- Whether the secondary pass flags. -/
def stage2Flagged (o : ImageOracle) : Bool :=
  match o.stage2 with
  | some content => stage2Verdict content
  | none => false

/-- Whether the encoded-payload scan flags. -/
def stage3Flagged (base64Image : List Char) : Bool :=
  !(stage3Found base64Image).isEmpty

/-- Whether the OCR scan flags. -/
def stage4Flagged (o : ImageOracle) : Bool :=
  match o.stage4 with
  | some content => !(stage4Found ((trimChars content).map Char.toLower)).isEmpty
  | none => false

/-- Whether the direct pattern check flags. -/
def stage5Flagged (base64Image : List Char) : Bool :=
  slutPatterns.any (fun p => containsSub p base64Image)

/-- The stages the cascade is expected to run: the prefix of the stage
order up to and including the first flagging stage. -/
def cascadeStages (base64Image : List Char) (o : ImageOracle) : List Stage :=
  Stage.primary ::
    (if stage1Flagged o then [] else
      Stage.secondary ::
        (if stage2Flagged o then [] else
          Stage.patternScan ::
            (if stage3Flagged base64Image then [] else
              Stage.ocr ::
                (if stage4Flagged o then [] else [Stage.directPattern]))))

/-- The raw stage 2 response text (empty when the call failed). -/
def stage2Content (o : ImageOracle) : List Char :=
  match o.stage2 with
  | some c => c
  | none => []

/-- The raw stage 4 transcription text (empty when the call failed). -/
def stage4Content (o : ImageOracle) : List Char :=
  match o.stage4 with
  | some c => c
  | none => []

/-- The verdict reason the cascade is expected to produce: the first
flagging stage wins; stages 2 to 5 carry an explicit stage label, the
primary stage carries only its category text. -/
def expectedReason (base64Image : List Char) (o : ImageOracle) : Option (List Char) :=
  if stage1Flagged o then some (stage1Eval o).2
  else if stage2Flagged o then
    some ("Secondary detection: ".toList ++ secondaryReasonTail (trimChars (stage2Content o)))
  else if stage3Flagged base64Image then
    some ("Pattern matching: Found explicit terms (".toList ++
      joinSep ", ".toList (stage3Found base64Image) ++ [')'])
  else if stage4Flagged o then
    some ("OCR detection: Found explicit terms (".toList ++
      joinSep ", ".toList (stage4Found ((trimChars (stage4Content o)).map Char.toLower)) ++ [')'])
  else if stage5Flagged base64Image then
    some ("Direct pattern matching: Detected explicit text".toList)
  else none

/-! ## Term-list mutation (index.ts and db.ts: addAbusiveWord,
removeAbusiveWord) -/

namespace Index

/-- addAbusiveWord from index.ts, restricted to the local file-backed list:
normalize (lowercase then trim) and append only when not already present;
the call reports success either way. -/
def addAbusiveWord (words : List (List Char)) (word : List Char) :
    List (List Char) × Bool :=
  let normalizedWord := trimChars (word.map Char.toLower)
  if normalizedWord ∈ words then (words, true)
  else (words ++ [normalizedWord], true)

/-- removeAbusiveWord from index.ts, restricted to the local file-backed
list: remove the first entry whose lowercase form equals the normalized
word, when one exists; the call reports success either way. -/
def removeAbusiveWord (words : List (List Char)) (word : List Char) :
    List (List Char) × Bool :=
  let normalizedWord := trimChars (word.map Char.toLower)
  match words.findIdx? (fun w => w.map Char.toLower == normalizedWord) with
  | some i => (words.eraseIdx i, true)
  | none => (words, true)

end Index

namespace Db

/-- Model of the mongo deleteOne operation on the abusiveWords collection:
remove the first document equal to the key. -/
def deleteOne (db : List (Int × List Char)) (key : Int × List Char) :
    List (Int × List Char) :=
  match db with
  | [] => []
  | e :: rest => if e = key then rest else e :: deleteOne rest key

/-- addAbusiveWord from db.ts: reject falsy arguments and empty normalized
words; an already-present (chatId, word) pair is reported as success
without touching the store; otherwise the pair is inserted. -/
def addAbusiveWord (db : List (Int × List Char)) (chatId : Int) (word : List Char) :
    List (Int × List Char) × Bool :=
  if chatId = 0 ∨ word = [] then (db, false)
  else
    let w := trimChars (word.map Char.toLower)
    if w = [] then (db, false)
    else if (chatId, w) ∈ db then (db, true)
    else (db ++ [(chatId, w)], true)

/-- removeAbusiveWord from db.ts: reject falsy arguments and empty
normalized words; deleteOne removes the first matching document, and the
reported boolean records whether one was deleted. -/
def removeAbusiveWord (db : List (Int × List Char)) (chatId : Int) (word : List Char) :
    List (Int × List Char) × Bool :=
  if chatId = 0 ∨ word = [] then (db, false)
  else
    let w := trimChars (word.map Char.toLower)
    if w = [] then (db, false)
    else (deleteOne db (chatId, w), decide ((chatId, w) ∈ db))

end Db

/-! ## Concrete records used by the counterexamples -/

/-- An alert record with a 10-minute interval last sent at epoch
millisecond 1000. -/
def alertBoundaryRecord : AlertRecord :=
  ⟨7, "msg".toList, 10, 1000⟩

/-- An oracle whose primary call flags with an empty category map. -/
def oracleFlaggedNoCats : ImageOracle :=
  ⟨some ⟨true, []⟩, none, none⟩

/-! ## Character lemmas -/

theorem toNat_ofNatAux (n : Nat) (h : n.isValidChar) : (Char.ofNatAux n h).toNat = n := by
  simp [Char.ofNatAux, Char.toNat, UInt32.toNat]

theorem toLower_toNat (c : Char) :
    (Char.toLower c).toNat = if 65 ≤ c.toNat ∧ c.toNat ≤ 90 then c.toNat + 32 else c.toNat := by
  unfold Char.toLower
  split
  · rename_i h
    have hv : (c.toNat + 32).isValidChar := by
      unfold Nat.isValidChar
      left
      omega
    rw [if_pos h]
    simp [Char.ofNat, hv, toNat_ofNatAux]
  · rename_i h
    rw [if_neg h]

theorem char_eq_of_toNat_eq {c d : Char} (h : c.toNat = d.toNat) : c = d :=
  Char.eq_of_val_eq (UInt32.toNat.inj h)

theorem toLower_idem (c : Char) : (Char.toLower c).toLower = Char.toLower c := by
  apply char_eq_of_toNat_eq
  have h1 := toLower_toNat c
  have h2 := toLower_toNat (Char.toLower c)
  by_cases h : 65 ≤ c.toNat ∧ c.toNat ≤ 90
  · rw [if_pos h] at h1
    rw [h1] at h2
    rw [if_neg (by omega)] at h2
    omega
  · rw [if_neg h] at h1
    rw [h1, if_neg h] at h2
    omega

theorem isJsWordChar_toLower (c : Char) : isJsWordChar (Char.toLower c) = isJsWordChar c := by
  have h := toLower_toNat c
  rw [Bool.eq_iff_iff]
  simp only [isJsWordChar, Bool.or_eq_true, Bool.and_eq_true, decide_eq_true_eq, beq_iff_eq, h]
  by_cases hc : 65 ≤ c.toNat ∧ c.toNat ≤ 90
  · rw [if_pos hc]
    omega
  · rw [if_neg hc]

theorem isAsciiAlphanum_toLower (c : Char) :
    isAsciiAlphanum (Char.toLower c) = isAsciiAlphanum c := by
  have h := toLower_toNat c
  rw [Bool.eq_iff_iff]
  simp only [isAsciiAlphanum, Bool.or_eq_true, Bool.and_eq_true, decide_eq_true_eq, h]
  by_cases hc : 65 ≤ c.toNat ∧ c.toNat ≤ 90
  · rw [if_pos hc]
    omega
  · rw [if_neg hc]

theorem ciCharEq_toLower_right (a b : Char) : ciCharEq a (Char.toLower b) = ciCharEq a b := by
  simp [ciCharEq, toLower_idem]

theorem alnum_ne_backslash {c : Char} (h : isAsciiAlphanum c = true) : ¬((c == '\\') = true) := by
  intro hb
  rw [beq_iff_eq] at hb
  subst hb
  exact absurd h (by decide)

theorem alnum_ne_dot {c : Char} (h : isAsciiAlphanum c = true) : ¬((c == '.') = true) := by
  intro hb
  rw [beq_iff_eq] at hb
  subst hb
  exact absurd h (by decide)

theorem alnum_not_special {c : Char} (h : isAsciiAlphanum c = true) : c ∉ regexSpecials := by
  intro hmem
  fin_cases hmem <;> exact absurd h (by decide)

/-! ## Regex fragment lemmas: on metacharacter-free terms the compiled
pattern tests exactly case-insensitive occurrence at a word boundary -/

theorem parseBody_all_lits (w : List Char) (h : ∀ c ∈ w, isAsciiAlphanum c = true) :
    parseBody w = some (w.map RElem.lit) := by
  induction w with
  | nil => rfl
  | cons c rest ih =>
    have hc := h c (by simp)
    have hrest : ∀ x ∈ rest, isAsciiAlphanum x = true := fun x hx => h x (by simp [hx])
    rw [parseBody.eq_def]
    simp only []
    rw [if_neg (alnum_ne_backslash hc), if_neg (alnum_not_special hc),
      if_neg (alnum_ne_dot hc), ih hrest]
    rfl

theorem matchElemsAt_lits (t : List Char) (ws : List Char) (ps : List RElem) (i : Nat) :
    matchElemsAt t (ws.map RElem.lit ++ ps) i =
      (ciSublistAt ws t i && matchElemsAt t ps (i + ws.length)) := by
  induction ws generalizing i with
  | nil => simp [ciSublistAt]
  | cons c rest ih =>
    have harith : i + 1 + rest.length = i + (rest.length + 1) := by omega
    simp only [List.map_cons, List.cons_append, List.append_eq, matchElemsAt, ciSublistAt, ih,
      Bool.and_assoc, List.length_cons, harith]

theorem matchElemsAt_word (t ws : List Char) (i : Nat) :
    matchElemsAt t (RElem.wb :: (ws.map RElem.lit ++ [RElem.wb])) i =
      (jsBoundaryAt t i && (ciSublistAt ws t i && jsBoundaryAt t (i + ws.length))) := by
  simp [matchElemsAt, matchElemsAt_lits]

theorem regexTest_word (ws t : List Char) :
    regexTest (RElem.wb :: (ws.map RElem.lit ++ [RElem.wb])) t = occursAtWordBoundary ws t := by
  unfold regexTest occursAtWordBoundary
  congr 1
  funext i
  exact matchElemsAt_word t ws i

theorem wordCharAt_map_toLower (t : List Char) (i : Nat) :
    wordCharAt (t.map Char.toLower) i = wordCharAt t i := by
  unfold wordCharAt
  rw [List.get?_map]
  cases t.get? i <;> simp [isJsWordChar_toLower]

theorem jsBoundaryAt_map_toLower (t : List Char) (i : Nat) :
    jsBoundaryAt (t.map Char.toLower) i = jsBoundaryAt t i := by
  unfold jsBoundaryAt
  rw [wordCharAt_map_toLower, wordCharAt_map_toLower]

theorem litMatch_map_toLower (t : List Char) (i : Nat) (c : Char) :
    litMatch (t.map Char.toLower) i c = litMatch t i c := by
  unfold litMatch
  rw [List.get?_map]
  cases t.get? i <;> simp [ciCharEq_toLower_right]

theorem ciSublistAt_map_toLower (ws t : List Char) (i : Nat) :
    ciSublistAt ws (t.map Char.toLower) i = ciSublistAt ws t i := by
  induction ws generalizing i with
  | nil => rfl
  | cons c rest ih => simp [ciSublistAt, litMatch_map_toLower, ih]

theorem occursAtWordBoundary_map_toLower (ws t : List Char) :
    occursAtWordBoundary ws (t.map Char.toLower) = occursAtWordBoundary ws t := by
  unfold occursAtWordBoundary
  rw [List.length_map]
  congr 1
  funext i
  rw [jsBoundaryAt_map_toLower, ciSublistAt_map_toLower, jsBoundaryAt_map_toLower]

theorem flaggedByWord_alnum (text w : List Char) (h : ∀ c ∈ w, isAsciiAlphanum c = true) :
    flaggedByWord (text.map Char.toLower) w = occursAtWordBoundary (w.map Char.toLower) text := by
  have hl : ∀ c ∈ w.map Char.toLower, isAsciiAlphanum c = true := by
    intro c hc
    rw [List.mem_map] at hc
    obtain ⟨d, hd, rfl⟩ := hc
    rw [isAsciiAlphanum_toLower]
    exact h d hd
  unfold flaggedByWord wordPattern
  simp only [parseBody_all_lits _ hl]
  rw [regexTest_word, occursAtWordBoundary_map_toLower]

/-! ## Cascade stage lemmas -/

theorem stage1Eval_fst (o : ImageOracle) : (stage1Eval o).1 = stage1Flagged o := by
  unfold stage1Eval stage1Flagged
  cases o.stage1 <;> rfl

theorem afterStage2_fst (o : ImageOracle) :
    (afterStage2 o).1 = (stage1Flagged o || stage2Flagged o) := by
  have h1 := stage1Eval_fst o
  unfold afterStage2 stage2Flagged
  cases hf : stage1Flagged o
  · rw [hf] at h1
    cases ho : o.stage2 with
    | none => simp [h1, ho]
    | some content =>
      cases hv : stage2Verdict content <;> simp [h1, ho, hv]
  · rw [hf] at h1
    simp [h1]

theorem afterStage3_fst (b : List Char) (o : ImageOracle) :
    (afterStage3 b o).1 = (stage1Flagged o || stage2Flagged o || stage3Flagged b) := by
  have h2 := afterStage2_fst o
  unfold afterStage3 stage3Flagged
  cases hf : (stage1Flagged o || stage2Flagged o)
  · rw [hf] at h2
    cases he : (stage3Found b).isEmpty <;> simp [h2, he, hf]
  · rw [hf] at h2
    simp [h2, hf]

theorem afterStage4_fst (b : List Char) (o : ImageOracle) :
    (afterStage4 b o).1 =
      (stage1Flagged o || stage2Flagged o || stage3Flagged b || stage4Flagged o) := by
  have h3 := afterStage3_fst b o
  unfold afterStage4 stage4Flagged
  cases hf : (stage1Flagged o || stage2Flagged o || stage3Flagged b)
  · rw [hf] at h3
    cases ho : o.stage4 with
    | none => simp [h3, ho, hf]
    | some content =>
      cases he : (stage4Found ((trimChars content).map Char.toLower)).isEmpty <;>
        simp [h3, ho, he, hf]
  · rw [hf] at h3
    simp [h3, hf]

theorem afterStage5_fst (b : List Char) (o : ImageOracle) :
    (afterStage5 b o).1 =
      (stage1Flagged o || stage2Flagged o || stage3Flagged b || stage4Flagged o ||
        stage5Flagged b) := by
  have h4 := afterStage4_fst b o
  unfold afterStage5 stage5Flagged
  cases hf : (stage1Flagged o || stage2Flagged o || stage3Flagged b || stage4Flagged o)
  · rw [hf] at h4
    cases hp : slutPatterns.any (fun p => containsSub p b) <;> simp [h4, hp, hf]
  · rw [hf] at h4
    simp [h4, hf]

theorem afterStage2_eq_stage1 (o : ImageOracle) (h : stage1Flagged o = true) :
    afterStage2 o = stage1Eval o := by
  have h1 := stage1Eval_fst o
  rw [h] at h1
  unfold afterStage2
  simp [h1]

theorem afterStage2_not2 (o : ImageOracle) (h1 : stage1Flagged o = false)
    (h2 : stage2Flagged o = false) : afterStage2 o = stage1Eval o := by
  have hs := stage1Eval_fst o
  rw [h1] at hs
  unfold afterStage2
  unfold stage2Flagged at h2
  cases ho : o.stage2 with
  | none => simp [hs, ho]
  | some content =>
    rw [ho] at h2
    have hv : stage2Verdict content = false := h2
    simp [hs, ho, hv]

theorem afterStage2_eq_secondary (o : ImageOracle) (h1 : stage1Flagged o = false)
    (h2 : stage2Flagged o = true) :
    afterStage2 o =
      (true, "Secondary detection: ".toList ++ secondaryReasonTail (trimChars (stage2Content o))) := by
  have hs := stage1Eval_fst o
  rw [h1] at hs
  unfold afterStage2 stage2Content
  unfold stage2Flagged at h2
  cases ho : o.stage2 with
  | none =>
    rw [ho] at h2
    exact absurd h2 (by decide)
  | some content =>
    rw [ho] at h2
    have hv : stage2Verdict content = true := h2
    simp [hs, ho, hv]

theorem afterStage3_pass (b : List Char) (o : ImageOracle) (h : (afterStage2 o).1 = true) :
    afterStage3 b o = afterStage2 o := by
  unfold afterStage3
  simp [h]

theorem afterStage3_not3 (b : List Char) (o : ImageOracle) (h2 : (afterStage2 o).1 = false)
    (h3 : stage3Flagged b = false) : afterStage3 b o = afterStage2 o := by
  unfold afterStage3
  unfold stage3Flagged at h3
  cases he : (stage3Found b).isEmpty
  · rw [he] at h3
    exact absurd h3 (by decide)
  · simp [h2, he]

theorem afterStage3_eq_pattern (b : List Char) (o : ImageOracle)
    (h2 : (afterStage2 o).1 = false) (h3 : stage3Flagged b = true) :
    afterStage3 b o =
      (true, "Pattern matching: Found explicit terms (".toList ++
        joinSep ", ".toList (stage3Found b) ++ [')']) := by
  unfold afterStage3
  unfold stage3Flagged at h3
  simp [h2, h3]

theorem afterStage4_pass (b : List Char) (o : ImageOracle) (h : (afterStage3 b o).1 = true) :
    afterStage4 b o = afterStage3 b o := by
  unfold afterStage4
  simp [h]

theorem afterStage4_not4 (b : List Char) (o : ImageOracle) (h3 : (afterStage3 b o).1 = false)
    (h4 : stage4Flagged o = false) : afterStage4 b o = afterStage3 b o := by
  unfold afterStage4
  unfold stage4Flagged at h4
  cases ho : o.stage4 with
  | none => simp [h3, ho]
  | some content =>
    rw [ho] at h4
    have hv : (!(stage4Found ((trimChars content).map Char.toLower)).isEmpty) = false := h4
    cases he : (stage4Found ((trimChars content).map Char.toLower)).isEmpty
    · rw [he] at hv
      exact absurd hv (by decide)
    · simp [h3, ho, he]

theorem afterStage4_eq_ocr (b : List Char) (o : ImageOracle)
    (h3 : (afterStage3 b o).1 = false) (h4 : stage4Flagged o = true) :
    afterStage4 b o =
      (true, "OCR detection: Found explicit terms (".toList ++
        joinSep ", ".toList (stage4Found ((trimChars (stage4Content o)).map Char.toLower)) ++
        [')']) := by
  unfold afterStage4 stage4Content
  unfold stage4Flagged at h4
  cases ho : o.stage4 with
  | none =>
    rw [ho] at h4
    exact absurd h4 (by decide)
  | some content =>
    rw [ho] at h4
    have hv : (!(stage4Found ((trimChars content).map Char.toLower)).isEmpty) = true := h4
    simp [h3, ho, hv]

theorem afterStage5_pass (b : List Char) (o : ImageOracle) (h : (afterStage4 b o).1 = true) :
    afterStage5 b o = afterStage4 b o := by
  unfold afterStage5
  simp [h]

theorem afterStage5_not5 (b : List Char) (o : ImageOracle) (h4 : (afterStage4 b o).1 = false)
    (h5 : stage5Flagged b = false) : afterStage5 b o = afterStage4 b o := by
  unfold afterStage5
  unfold stage5Flagged at h5
  simp [h4, h5]

theorem afterStage5_eq_direct (b : List Char) (o : ImageOracle)
    (h4 : (afterStage4 b o).1 = false) (h5 : stage5Flagged b = true) :
    afterStage5 b o = (true, "Direct pattern matching: Detected explicit text".toList) := by
  unfold afterStage5
  unfold stage5Flagged at h5
  simp [h4, h5]

theorem deleteOne_of_not_mem (db : List (Int × List Char)) (key : Int × List Char)
    (h : key ∉ db) : Db.deleteOne db key = db := by
  induction db with
  | nil => rfl
  | cons e rest ih =>
    unfold Db.deleteOne
    rw [if_neg (by rintro rfl; exact h (by simp)), ih (fun hm => h (by simp [hm]))]

/-! ## Claim theorems -/

/-- Claim C1, counterexample: for the record with interval 10 minutes and
lastSent 1000, the instant now = lastSent + 10 * 60000 satisfies the due
condition of the claim (now minus lastSent is at least interval * 60000),
yet getAlertMessagesToSend does not select the record, because the query
uses a strict comparison. -/
theorem alertDue_boundary_counterexample :
    alertBoundaryRecord.interval * 60000 ≤ 601000 - alertBoundaryRecord.lastSent ∧
    getAlertMessagesToSend [alertBoundaryRecord] 601000 = [] := by
  decide

/-- Claim C1 (amended): the due check selects a record exactly when
strictly more than interval * 60000 milliseconds have elapsed since
lastSent; at now = lastSent + interval * 60000 the alert is not yet due,
one millisecond later it is; a record with lastSent 0 is due as soon as
now exceeds interval * 60000, hence immediately for any realistic epoch
timestamp. -/
theorem getAlertMessagesToSend_mem_iff (store : List AlertRecord) (now : Nat)
    (a : AlertRecord) :
    a ∈ getAlertMessagesToSend store now ↔
      a ∈ store ∧ a.interval * 60000 < now - a.lastSent := by
  unfold getAlertMessagesToSend
  rw [List.mem_filter]
  unfold alertDue
  constructor
  · rintro ⟨h1, h2⟩
    rw [decide_eq_true_eq] at h2
    exact ⟨h1, by omega⟩
  · rintro ⟨h1, h2⟩
    refine ⟨h1, ?_⟩
    rw [decide_eq_true_eq]
    omega

/-- Claim C2: starting from a clean ledger, four flagged verdicts fed one
at a time (spaced beyond the 60 second cooldown) produce warning 1,
warning 2, then a ban together with a reset of the stored count to 0, and
the fourth verdict is treated as warning 1 again. -/
theorem escalation_ladder (t1 t2 t3 t4 : Nat)
    (h1 : 0 < t1) (h2 : 60000 < t2 - t1) (h4 : 60000 < t4 - t2) :
    handleInappropriateContent ⟨0, 0⟩ t1 = (⟨1, t1⟩, ModAction.warn 1) ∧
    handleInappropriateContent ⟨1, t1⟩ t2 = (⟨2, t2⟩, ModAction.warn 2) ∧
    handleInappropriateContent ⟨2, t2⟩ t3 = (⟨0, t2⟩, ModAction.ban) ∧
    handleInappropriateContent ⟨0, t2⟩ t4 = (⟨1, t4⟩, ModAction.warn 1) := by
  unfold handleInappropriateContent
  refine ⟨?_, ?_, ?_, ?_⟩
  · rw [if_neg (by decide), if_pos (Or.inl rfl)]
  · rw [if_neg (by show ¬(3 : Nat) ≤ 1 + 1; decide), if_pos (Or.inr h2)]
  · rw [if_pos (by show (3 : Nat) ≤ 2 + 1; decide)]
  · rw [if_neg (by show ¬(3 : Nat) ≤ 0 + 1; decide), if_pos (Or.inr h4)]

/-- Claim C2, witness at concrete times 1, 70000, 70001, 140000. -/
theorem escalation_ladder_witness :
    handleInappropriateContent ⟨0, 0⟩ 1 = (⟨1, 1⟩, ModAction.warn 1) ∧
    handleInappropriateContent ⟨1, 1⟩ 70000 = (⟨2, 70000⟩, ModAction.warn 2) ∧
    handleInappropriateContent ⟨2, 70000⟩ 70001 = (⟨0, 70000⟩, ModAction.ban) ∧
    handleInappropriateContent ⟨0, 70000⟩ 140000 = (⟨1, 140000⟩, ModAction.warn 1) :=
  escalation_ladder 1 70000 70001 140000 (by decide) (by decide) (by decide)

/-- Claim C3, counterexample: with no stored configuration, the settings
lookup for group 7 yields the default configuration, which has the text,
image and video moderation features all enabled rather than disabled, and
text content is flagged under it. -/
theorem absent_config_flags_content :
    getGroupSettings [] 7 = getDefaultGroupSettings 7 ∧
    (getGroupSettings [] 7).abusiveWordsEnabled = true ∧
    (getGroupSettings [] 7).imageModeration = true ∧
    (getGroupSettings [] 7).videoModeration = true ∧
    containsAbusiveWord "fuck".toList (some 7) [] ["fuck".toList] [] = true := by
  decide

/-- Claim C3 (amended): configuration absence is not an error: when no
document matches the group, getGroupSettings returns the default
configuration, which has all three moderation features enabled. -/
theorem getGroupSettings_absent_defaults (store : List GroupSettings) (chatId : Int)
    (h : store.find? (fun s => s.chatId == chatId) = none) :
    getGroupSettings store chatId = getDefaultGroupSettings chatId ∧
    getDefaultGroupSettings chatId = ⟨chatId, true, true, true⟩ := by
  refine ⟨?_, rfl⟩
  unfold getGroupSettings
  by_cases hc : chatId = 0
  · rw [if_pos hc]
  · rw [if_neg hc, h]


/-- Claim C3, witness at the empty store and group 7. -/
theorem getGroupSettings_absent_defaults_witness :
    getGroupSettings [] 7 = getDefaultGroupSettings 7 ∧
    getDefaultGroupSettings 7 = ⟨7, true, true, true⟩ :=
  getGroupSettings_absent_defaults [] 7 rfl

/-- Claim C4, counterexample.  First: for the term list containing the
term a.c and the text abc, the matcher returns true although the term
does not occur in the text at all (at a word boundary or otherwise) and
its boundary pattern is valid, because the unescaped dot is interpreted
as a regex wildcard.  Second: for the term foo and the text delimited by
underscores, the term does occur with no alphanumeric character on either
side (the boundary notion stated by the spec), yet the matcher returns
false, because the regex word-boundary assertion treats the underscore as
a word character. -/
theorem containsAbusiveWord_regex_counterexample :
    containsAbusiveWord "abc".toList (some 1) [] ["a.c".toList] [] = true ∧
    occursAtWordBoundary "a.c".toList "abc".toList = false ∧
    containsSub "a.c".toList "abc".toList = false ∧
    wordPattern "a.c".toList ≠ none ∧
    containsAbusiveWord "_foo_".toList (some 1) [] ["foo".toList] [] = false ∧
    specAlnumBoundaryOccurs "foo".toList "_foo_".toList = true := by
  decide

/-- Claim C4 (amended): for terms made only of ASCII alphanumeric
characters (so that the regex engine treats every character literally and
the boundary pattern is always valid), the matcher returns true exactly
when the text is nonempty and some lowercased term of the combined list
occurs in the text, case-insensitively, at a JavaScript word boundary
(not adjacent to a letter, digit or underscore); in particular empty text
is never flagged. -/
theorem containsAbusiveWord_iff_boundary (text : List Char) (cid : Int)
    (localWords dbWords : List (List Char)) (hcid : ¬(cid = 0))
    (halnum : ∀ w ∈ localWords ++ dbWords, ∀ c ∈ w, isAsciiAlphanum c = true) :
    containsAbusiveWord text (some cid) [] localWords dbWords = true ↔
      (text ≠ [] ∧ ∃ w, w ∈ localWords ++ dbWords ∧
        occursAtWordBoundary (w.map Char.toLower) text = true) := by
  have hbe : (cid == 0) = false := by
    rw [beq_eq_false_iff_ne]
    exact hcid
  by_cases ht : text = []
  · subst ht
    simp [containsAbusiveWord]
  · have hne : text.isEmpty = false := by
      cases text with
      | nil => exact absurd rfl ht
      | cons c rest => rfl
    have hdef : getGroupSettings [] cid = getDefaultGroupSettings cid := by
      unfold getGroupSettings
      rw [if_neg hcid]
      rfl
    unfold containsAbusiveWord
    rw [hne]
    simp only [hbe, hdef, getDefaultGroupSettings, Bool.false_eq_true, if_false,
      Bool.not_false, Bool.not_true, Bool.and_false, Bool.true_and,
      ← List.any_append, List.any_eq_true]
    constructor
    · rintro ⟨w, hw, hf⟩
      refine ⟨ht, w, hw, ?_⟩
      rw [← flaggedByWord_alnum text w (halnum w hw)]
      exact hf
    · rintro ⟨-, w, hw, hf⟩
      refine ⟨w, hw, ?_⟩
      rw [flaggedByWord_alnum text w (halnum w hw)]
      exact hf

/-- Claim C4, witness: the term fuck occurs at a word boundary of the
text hey fuck, and the matcher flags it. -/
theorem containsAbusiveWord_iff_boundary_witness :
    containsAbusiveWord "hey fuck".toList (some 1) [] ["fuck".toList] [] = true ↔
      ("hey fuck".toList ≠ [] ∧ ∃ w, w ∈ ["fuck".toList] ++ ([] : List (List Char)) ∧
        occursAtWordBoundary (w.map Char.toLower) "hey fuck".toList = true) :=
  containsAbusiveWord_iff_boundary "hey fuck".toList 1 ["fuck".toList] []
    (by decide) (by decide)

/-- Claim C5: starting from a clean count, two flagged verdicts processed
within 60 seconds of each other yield at most one warning message, while
the stored count is incremented by 1 for each of the two verdicts (from 0
to 2), whatever the outcomes of the two message deletions. -/
theorem cooldown_single_warning (s : UserModState) (t1 t2 : Nat) (d1 d2 : Bool)
    (hs : s.count = 0) (h0 : 0 < t1) (h12 : t1 ≤ t2) (hc : t2 - t1 ≤ 60000) :
    ((handleTextViolation (handleTextViolation s t1 d1).1 t2 d2).1.count = 2) ∧
    ¬(isWarnAction (handleTextViolation s t1 d1).2.1 = true ∧
      isWarnAction (handleTextViolation (handleTextViolation s t1 d1).1 t2 d2).2.1 = true) := by
  by_cases hb : d1 = true ∧ (s.lastWarning = 0 ∨ 60000 < t1 - s.lastWarning)
  · have e1 : handleTextViolation s t1 d1 = (⟨1, t1⟩, ModAction.warn 1, !d1) := by
      unfold handleTextViolation
      rw [hs, if_neg (by decide), if_pos hb]
    rw [e1]
    have e2 : handleTextViolation ⟨1, t1⟩ t2 d2 = (⟨2, t1⟩, ModAction.noAction, !d2) := by
      unfold handleTextViolation
      rw [if_neg (by show ¬(3 : Nat) ≤ 1 + 1; decide),
        if_neg (by
          rintro ⟨-, hor⟩
          rcases hor with h | h
          · have h1 : t1 = 0 := h
            omega
          · have h2 : 60000 < t2 - t1 := h
            omega)]
    rw [e2]
    refine ⟨rfl, ?_⟩
    rintro ⟨-, hw2⟩
    simp [isWarnAction] at hw2
  · have e1 : handleTextViolation s t1 d1 = (⟨1, s.lastWarning⟩, ModAction.noAction, !d1) := by
      unfold handleTextViolation
      rw [hs, if_neg (by decide), if_neg hb]
    rw [e1]
    constructor
    · unfold handleTextViolation
      rw [if_neg (by show ¬(3 : Nat) ≤ 1 + 1; decide)]
      split <;> rfl
    · rintro ⟨hw1, -⟩
      simp [isWarnAction] at hw1

/-- Claim C5, witness at times 1 and 2 with both deletions succeeding. -/
theorem cooldown_single_warning_witness :
    ((handleTextViolation (handleTextViolation ⟨0, 0⟩ 1 true).1 2 true).1.count = 2) ∧
    ¬(isWarnAction (handleTextViolation ⟨0, 0⟩ 1 true).2.1 = true ∧
      isWarnAction (handleTextViolation (handleTextViolation ⟨0, 0⟩ 1 true).1 2 true).2.1 =
        true) :=
  cooldown_single_warning ⟨0, 0⟩ 1 2 true true rfl (by decide) (by decide) (by decide)

/-- Claim C6: the cascade runs exactly the prefix of the stage order up to
and including the first flagging stage (so when stage 1 flags, stages 2
to 5 are never invoked), and the verdict is flagged exactly when some
stage flags. -/
theorem moderateImage_cascade_short_circuit (b : List Char) (o : ImageOracle) :
    (moderateImage true true true b o).2 = cascadeStages b o ∧
    (moderateImage true true true b o).1.isInappropriate =
      (stage1Flagged o || stage2Flagged o || stage3Flagged b || stage4Flagged o ||
        stage5Flagged b) := by
  have hm : moderateImage true true true b o =
      (⟨(afterStage5 b o).1, if (afterStage5 b o).1 then some (afterStage5 b o).2 else none⟩,
        invokedStages b o) := rfl
  constructor
  · rw [hm]
    show invokedStages b o = cascadeStages b o
    unfold invokedStages cascadeStages
    rw [stage1Eval_fst, afterStage2_fst, afterStage3_fst, afterStage4_fst]
    cases stage1Flagged o <;> cases stage2Flagged o <;> cases stage3Flagged b <;>
      cases stage4Flagged o <;> rfl
  · rw [hm]
    exact afterStage5_fst b o

/-- Claim C7, counterexample: in the same state, the handler emits warning
1 when the deletion succeeded but emits no warn decision when the deletion
failed (only the could-not-delete notice), so the warn outcome is not
emitted regardless of the deletion result. -/
theorem delete_failure_counterexample :
    (handleTextViolation ⟨0, 0⟩ 1000 true).2.1 = ModAction.warn 1 ∧
    (handleTextViolation ⟨0, 0⟩ 1000 false).2.1 = ModAction.noAction ∧
    (handleTextViolation ⟨0, 0⟩ 1000 false).2.2 = true := by
  decide

/-- Claim C7 (amended): when the deletion fails the handler still
increments the count and still emits the removal decision at the
threshold, and the could-not-delete notice is always sent; but below the
threshold the warning is suppressed, so only the ban outcome proceeds
regardless of the deletion result. -/
theorem handleTextViolation_deleteFailed (s : UserModState) (now : Nat) :
    handleTextViolation s now false =
      (⟨if 3 ≤ s.count + 1 then 0 else s.count + 1, s.lastWarning⟩,
        (if 3 ≤ s.count + 1 then ModAction.ban else ModAction.noAction), true) := by
  unfold handleTextViolation
  by_cases h : 3 ≤ s.count + 1
  · simp [h]
  · simp [h]

/-- Claim C8, counterexample: when the primary stage flags with no flagged
categories, the verdict reason is the bare text Inappropriate content
detected, which contains no colon and hence is not of the form of a stage
name prefixed to a stage reason. -/
theorem reason_unprefixed_counterexample :
    (moderateImage true true true [] oracleFlaggedNoCats).1.reason =
      some ("Inappropriate content detected".toList) ∧
    ("Inappropriate content detected".toList.contains ':') = false := by
  decide

/-- Claim C8 (amended): the verdict reason is exactly the first flagging
stage's reason; stages 2 to 5 prefix it with their stage labels
(Secondary detection, Pattern matching, OCR detection, Direct pattern
matching), while stage 1 produces Inappropriate content detected or
Flagged categories with no stage label; when no stage flags the verdict
carries no reason. -/
theorem moderateImage_reason_characterization (b : List Char) (o : ImageOracle) :
    (moderateImage true true true b o).1.reason = expectedReason b o := by
  have hm : moderateImage true true true b o =
      (⟨(afterStage5 b o).1, if (afterStage5 b o).1 then some (afterStage5 b o).2 else none⟩,
        invokedStages b o) := rfl
  rw [hm]
  show (if (afterStage5 b o).1 then some (afterStage5 b o).2 else none) = expectedReason b o
  unfold expectedReason
  cases hf1 : stage1Flagged o
  · cases hf2 : stage2Flagged o
    · cases hf3 : stage3Flagged b
      · cases hf4 : stage4Flagged o
        · cases hf5 : stage5Flagged b
          · have h5 := afterStage5_fst b o
            rw [hf1, hf2, hf3, hf4, hf5] at h5
            simp only [Bool.or_self, Bool.or_false] at h5
            rw [h5]
            simp [hf1, hf2, hf3, hf4, hf5]
          · have e5 := afterStage5_eq_direct b o
              (by rw [afterStage4_fst, hf1, hf2, hf3, hf4]; rfl) hf5
            rw [e5]
            simp [hf1, hf2, hf3, hf4, hf5]
        · have e4 := afterStage4_eq_ocr b o
            (by rw [afterStage3_fst, hf1, hf2, hf3]; rfl) hf4
          have e5 := afterStage5_pass b o (by rw [e4])
          rw [e5, e4]
          simp [hf1, hf2, hf3, hf4]
      · have e3 := afterStage3_eq_pattern b o
          (by rw [afterStage2_fst, hf1, hf2]; rfl) hf3
        have e4 := afterStage4_pass b o (by rw [e3])
        have e5 := afterStage5_pass b o (by rw [e4, e3])
        rw [e5, e4, e3]
        simp [hf1, hf2, hf3]
    · have e2 := afterStage2_eq_secondary o hf1 hf2
      have e3 := afterStage3_pass b o (by rw [e2])
      have e4 := afterStage4_pass b o (by rw [e3, e2])
      have e5 := afterStage5_pass b o (by rw [e4, e3, e2])
      rw [e5, e4, e3, e2]
      simp [hf1, hf2]
  · have hs1 : (stage1Eval o).1 = true := by rw [stage1Eval_fst, hf1]
    have e2 := afterStage2_eq_stage1 o hf1
    have e3 := afterStage3_pass b o (by rw [e2]; exact hs1)
    have e4 := afterStage4_pass b o (by rw [e3, e2]; exact hs1)
    have e5 := afterStage5_pass b o (by rw [e4, e3, e2]; exact hs1)
    rw [e5, e4, e3, e2]
    simp [hf1, hs1]

/-- Claim C9: adding a term already present after normalization leaves the
local list and the database contents unchanged and reports success, and
removing an absent term leaves them unchanged (the local layer reports
success; the database layer completes normally, reporting that nothing
was deleted). -/
theorem term_mutation_idempotent :
    (∀ (words : List (List Char)) (word : List Char),
      trimChars (word.map Char.toLower) ∈ words →
      Index.addAbusiveWord words word = (words, true)) ∧
    (∀ (words : List (List Char)) (word : List Char),
      words.findIdx? (fun w => w.map Char.toLower == trimChars (word.map Char.toLower)) =
        none →
      Index.removeAbusiveWord words word = (words, true)) ∧
    (∀ (db : List (Int × List Char)) (cid : Int) (word : List Char),
      ¬(cid = 0) → ¬(word = []) → ¬(trimChars (word.map Char.toLower) = []) →
      (cid, trimChars (word.map Char.toLower)) ∈ db →
      Db.addAbusiveWord db cid word = (db, true)) ∧
    (∀ (db : List (Int × List Char)) (cid : Int) (word : List Char),
      (cid, trimChars (word.map Char.toLower)) ∉ db →
      (Db.removeAbusiveWord db cid word).1 = db) := by
  refine ⟨?_, ?_, ?_, ?_⟩
  · intro words word h
    unfold Index.addAbusiveWord
    rw [if_pos h]
  · intro words word h
    simp only [Index.removeAbusiveWord, h]
  · intro db cid word h0 hw hnz hmem
    unfold Db.addAbusiveWord
    rw [if_neg (by rintro (h | h); exact h0 h; exact hw h), if_neg hnz, if_pos hmem]
  · intro db cid word h
    unfold Db.removeAbusiveWord
    by_cases h0 : cid = 0 ∨ word = []
    · rw [if_pos h0]
    · rw [if_neg h0]
      by_cases hz : trimChars (word.map Char.toLower) = []
      · rw [if_pos hz]
      · rw [if_neg hz]
        exact deleteOne_of_not_mem db _ h

/-- Claim C9, witness: adding the already-present normalized term bad and
removing the absent terms good leave both layers unchanged. -/
theorem term_mutation_idempotent_witness :
    Index.addAbusiveWord ["bad".toList] " BAD ".toList = (["bad".toList], true) ∧
    Index.removeAbusiveWord ["bad".toList] "good".toList = (["bad".toList], true) ∧
    Db.addAbusiveWord [(1, "bad".toList)] 1 "BAD".toList = ([(1, "bad".toList)], true) ∧
    (Db.removeAbusiveWord [(1, "bad".toList)] 1 "good".toList).1 = [(1, "bad".toList)] :=
  ⟨term_mutation_idempotent.1 _ _ (by decide),
   term_mutation_idempotent.2.1 _ _ (by decide),
   term_mutation_idempotent.2.2.1 _ _ _ (by decide) (by decide) (by decide) (by decide),
   term_mutation_idempotent.2.2.2 _ _ _ (by decide)⟩

/-- Claim C10: with no API key configured, or with an invalid input
buffer, moderateImage returns a not-flagged verdict with an empty list of
invoked stages, so no cascade stage (remote or local) is evaluated. -/
theorem moderateImage_no_key_or_invalid (validBuffer hasApiKey prepOk : Bool)
    (b : List Char) (o : ImageOracle) :
    moderateImage validBuffer false prepOk b o = (⟨false, none⟩, []) ∧
    moderateImage false hasApiKey prepOk b o = (⟨false, none⟩, []) := by
  constructor
  · cases validBuffer <;> rfl
  · rfl

end TGBot
